import Mathlib

/-!
Verification of the SAM hive account decoder (`src/samhiveparser.py`).

The development shallowly embeds the two blob decoders (`decode_username`,
`decode_f_value`) and the per-subkey driver loop of `parse_sam_hive`.
Bytes are modelled as `List Nat` (each entry < 256 in intended use; the
arithmetic never depends on that bound).  Python slicing `b[i:j]` clamps to
the available bytes and never fails, which `pySlice` reproduces;
`struct.unpack` demands an exact byte count and raises otherwise, which
`structUnpack` models by returning `none`.
-/

set_option autoImplicit false

namespace SamHive

/-- Little-endian value of a byte list (first byte is least significant). -/
def leNat : List Nat → Nat
  | [] => 0
  | b :: bs => b + 256 * leNat bs

/-- Little-endian byte list of width `w` for the value `n % 256^w`
(used to build concrete test blobs). -/
def leBytes : Nat → Nat → List Nat
  | 0, _ => []
  | w + 1, n => n % 256 :: leBytes w (n / 256)

/-- Python slice `b[i:j]` for `0 ≤ i ≤ j`: clamps to the buffer, never fails. -/
def pySlice (b : List Nat) (i j : Nat) : List Nat :=
  (b.take j).drop i

/-- `struct.unpack` of one little-endian unsigned field of `n` bytes:
requires exactly `n` bytes, else raises (modelled as `none`). -/
def structUnpack (n : Nat) (bs : List Nat) : Option Nat :=
  if bs.length = n then some (leNat bs) else none

/-- The Unicode replacement character U+FFFD emitted by `errors='replace'`. -/
def replChar : Char := Char.ofNat 0xFFFD

/-- Pair bytes little-endian into 16-bit code units; a dangling final byte
is dropped here (`utf16leDecode` accounts for it with one U+FFFD). -/
def toUnits : List Nat → List Nat
  | b0 :: b1 :: rest => (b0 + 256 * b1) :: toUnits rest
  | _ => []

/-- Is `u` a high (leading) surrogate code unit? -/
def isHighSurrogate (u : Nat) : Bool := 0xD800 ≤ u ∧ u < 0xDC00

/-- Is `u` a low (trailing) surrogate code unit? -/
def isLowSurrogate (u : Nat) : Bool := 0xDC00 ≤ u ∧ u < 0xE000

/-- A lone code unit: a surrogate is replaced with U+FFFD, anything else is
the corresponding BMP character. -/
def decodeSingle (u : Nat) : Char :=
  if isHighSurrogate u || isLowSurrogate u then replChar else Char.ofNat u

/-- Decode a list of UTF-16 code units with replacement semantics: a
well-formed surrogate pair yields one supplementary character; a lone
surrogate yields U+FFFD. -/
def decodeUnits : List Nat → List Char
  | [] => []
  | [u] => [decodeSingle u]
  | u :: u2 :: rest =>
    if isHighSurrogate u then
      if isLowSurrogate u2 then
        Char.ofNat (0x10000 + (u - 0xD800) * 0x400 + (u2 - 0xDC00)) ::
          decodeUnits rest
      else
        replChar :: decodeUnits (u2 :: rest)
    else
      decodeSingle u :: decodeUnits (u2 :: rest)

/-- UTF-16LE lossy decoding as performed by `bytes.decode('utf-16le',
errors='replace')`: bytes are paired little-endian into 16-bit code units; a
well-formed surrogate pair yields one supplementary character; a lone
surrogate code unit yields U+FFFD; a dangling final byte yields U+FFFD. -/
def utf16leDecode (bs : List Nat) : List Char :=
  decodeUnits (toUnits bs) ++ (if bs.length % 2 = 1 then [replChar] else [])

/-- The whitespace predicate of Python `str.strip()` (Unicode whitespace). -/
def isPySpace (c : Char) : Bool :=
  (0x09 ≤ c.toNat ∧ c.toNat ≤ 0x0D) || (0x1C ≤ c.toNat ∧ c.toNat ≤ 0x1F) ||
    c.toNat = 0x20 || c.toNat = 0x85 || c.toNat = 0xA0 || c.toNat = 0x1680 ||
    (0x2000 ≤ c.toNat ∧ c.toNat ≤ 0x200A) || c.toNat = 0x2028 ||
    c.toNat = 0x2029 || c.toNat = 0x202F || c.toNat = 0x205F ||
    c.toNat = 0x3000

/-- Python `str.strip()`: drop leading and trailing whitespace characters. -/
def pyStrip (s : String) : String :=
  String.mk (((s.data.dropWhile isPySpace).reverse.dropWhile isPySpace).reverse)

/-- Result of `decode_username`: either the decoded string or the
`"Error decoding username: ..."` in-band error string of the `except` arm. -/
inductive UsernameResult where
  | ok (s : String)
  | err
  deriving DecidableEq

/-- `decode_username(v_blob)` from `src/samhiveparser.py`:
reads a 16-bit character count at 0x0C and a 32-bit byte offset at 0x10,
slices `v_blob[offset : offset + 2*count]` (Python slicing: clamps),
decodes it as UTF-16LE with `errors='replace'` and strips whitespace.
Any raised exception (only the two `struct.unpack` calls can raise) is
caught and reported as an in-band error string. -/
def decode_username (v : List Nat) : UsernameResult :=
  match structUnpack 2 (pySlice v 0x0C 0x0E) with
  | none => .err
  | some lenChars =>
    match structUnpack 4 (pySlice v 0x10 0x14) with
    | none => .err
    | some off =>
      .ok (pyStrip (String.mk (utf16leDecode (pySlice v off (off + lenChars * 2)))))

example : decode_username [] = .err := by decide

/-!
The last-login conversion: `datetime.datetime(1601, 1, 1) +
datetime.timedelta(microseconds=timestamp // 10)`, then
`strftime("%Y-%m-%d %H:%M:%S")`.  The proleptic Gregorian calendar of
`datetime` is embedded through the standard civil-from-days arithmetic,
with day 0 = 1601-01-01.  `datetime` raises `OverflowError` when the sum
exceeds `datetime.max` (9999-12-31 23:59:59.999999); the `timedelta`
itself cannot overflow for `timestamp < 2^64` (its bound is far larger).
-/

/-- Gregorian (year, month, day) of day number `d`, with day 0 = 1601-01-01.
Standard era-based civil-from-days arithmetic: `d + 584694` is the day
count since 0000-03-01 of the shifted (March-first) calendar. -/
def civilFromDays (d : Nat) : Nat × Nat × Nat :=
  let z := d + 584694
  let era := z / 146097
  let doe := z % 146097
  let yoe := (doe - doe / 1460 + doe / 36524 - doe / 146096) / 365
  let y := yoe + era * 400
  let doy := doe - (365 * yoe + yoe / 4 - yoe / 100)
  let mp := (5 * doy + 2) / 153
  let day := doy - (153 * mp + 2) / 5 + 1
  let month := if mp < 10 then mp + 3 else mp - 9
  (if month ≤ 2 then y + 1 else y, month, day)

/-- Day number (day 0 = 1601-01-01) of a Gregorian date, inverse of
`civilFromDays` on dates from 1601-01-01 onward. -/
def daysFromCivil (y m d : Nat) : Nat :=
  let y2 := if m ≤ 2 then y - 1 else y
  let era := y2 / 400
  let yoe := y2 % 400
  let mp := if 2 < m then m - 3 else m + 9
  let doy := (153 * mp + 2) / 5 + d - 1
  let doe := yoe * 365 + yoe / 4 - yoe / 100 + doy
  era * 146097 + doe - 584694

/-- Largest microsecond count `usec` such that 1601-01-01 00:00:00 plus `usec`
microseconds is still representable by `datetime` (at most
9999-12-31 23:59:59.999999). -/
def maxMicro : Nat := daysFromCivil 9999 12 31 * 86400000000 + 86399999999

/-- Two-digit zero-padded decimal rendering, as `strftime` uses for
month, day, hour, minute and second. -/
def pad2 (n : Nat) : String := if n < 10 then "0" ++ toString n else toString n

/-- `strftime("%Y-%m-%d %H:%M:%S")` of 1601-01-01 00:00:00 plus `usec`
microseconds (sub-second part discarded by the format). -/
def formatTimestamp (usec : Nat) : String :=
  let days := usec / 86400000000
  let secs := usec % 86400000000 / 1000000
  let c := civilFromDays days
  toString c.1 ++ "-" ++ pad2 c.2.1 ++ "-" ++ pad2 c.2.2 ++ " " ++
    pad2 (secs / 3600) ++ ":" ++ pad2 (secs % 3600 / 60) ++ ":" ++
    pad2 (secs % 60)

/-- Result of `decode_f_value`: the `(last_login, password_policy)` string
pair on success, or the in-band `("Unknown", "Error: ...")` pair produced by
the single `except` arm that guards the whole body. -/
inductive FResult where
  | ok (lastLogin policy : String)
  | err
  deriving DecidableEq

/-- `decode_f_value(f_blob)` from `src/samhiveparser.py`:
unpacks the 8-byte little-endian FILETIME at `f_blob[8:16]` (zero means
`"Never"`, otherwise 1601-01-01 plus `timestamp // 10` microseconds,
raising `OverflowError` past `datetime.max`), then unpacks the 4-byte
little-endian flags at `f_blob[24:28]` and maps bit 0x20 to the policy
string.  The whole body is one `try`: any failure yields the error pair. -/
def decode_f_value (f : List Nat) : FResult :=
  match structUnpack 8 (pySlice f 8 16) with
  | none => .err
  | some t =>
    let lastLogin? : Option String :=
      if t = 0 then some "Never"
      else if t / 10 ≤ maxMicro then some (formatTimestamp (t / 10)) else none
    match lastLogin? with
    | none => .err
    | some lastLogin =>
      match structUnpack 4 (pySlice f 24 28) with
      | none => .err
      | some flags =>
        .ok lastLogin
          (if Nat.testBit flags 5 then "No Password Required"
           else "Password Required")

/-!
The driver `parse_sam_hive` (its per-subkey loop; opening the hive and
locating `SAM\Domains\Account\Users` is the external collaborator and out
of scope).  A subkey is a name plus named value blobs;
`subkey.value("V")` raises `RegistryValueNotFoundException` when absent,
modelled by `List.lookup` returning `none`.  Each loop iteration prints
the RID unconditionally, then inside one `try` looks up `V`, looks up `F`,
and runs both decoders; any exception is caught and reported per subkey.
-/

/-- A registry subkey as the loop consumes it: its name (the RID) and its
named values. -/
structure Subkey where
  name : String
  values : List (String × List Nat)
  deriving DecidableEq

/-- What one loop iteration of `parse_sam_hive` emits for a subkey:
either the decoded record lines, or the `"Error processing subkey ..."`
line when a value lookup raised. -/
inductive SubkeyOutput where
  | record (rid : String) (username : UsernameResult) (fvalue : FResult)
  | procError (rid : String)
  deriving DecidableEq

/-- One iteration of the `for subkey in users_key.subkeys()` loop:
`"Names"` is skipped via `continue`; otherwise `V` is looked up first,
then `F`; if either lookup raises, the `except` arm reports a subkey-level
error and neither decoder runs; otherwise both decoders run. -/
def processSubkey (k : Subkey) : Option SubkeyOutput :=
  if k.name = "Names" then none
  else
    some (match k.values.lookup "V", k.values.lookup "F" with
      | some v, some f => .record k.name (decode_username v) (decode_f_value f)
      | _, _ => .procError k.name)

/-- The whole loop of `parse_sam_hive`, as the sequence of per-subkey
outputs in enumeration order. -/
def parse_sam_hive (ks : List Subkey) : List SubkeyOutput :=
  ks.filterMap processSubkey

/-- Both decoders run on one `(V, F)` byte pair. -/
def decodeAccount (v f : List Nat) : UsernameResult × FResult :=
  (decode_username v, decode_f_value f)

/-- UTF-16LE bytes of a list of ASCII characters (low byte, zero high byte). -/
def asciiUtf16le : List Char → List Nat
  | [] => []
  | c :: cs => c.toNat :: 0 :: asciiUtf16le cs

/-- Printable-ASCII character (0x20 to 0x7E). -/
def isPrintableAscii (c : Char) : Bool := 0x20 ≤ c.toNat && c.toNat ≤ 0x7E

/-! ### Helper lemmas -/

lemma pySlice_length (b : List Nat) (i j : Nat) :
    (pySlice b i j).length = min j b.length - i := by
  simp [pySlice]

lemma pySlice_eq_nil_of_le (b : List Nat) (i j : Nat) (h : b.length ≤ i) :
    pySlice b i j = [] := by
  rw [pySlice, List.drop_eq_nil_iff]
  simp only [List.length_take]
  omega

/-- Successful unfolding of `decode_username` on a blob long enough for both
preamble reads: the result is the stripped lossy decode of the clamped
slice at the designated offset and byte length. -/
lemma decode_username_of_le (v : List Nat) (h : 20 ≤ v.length) :
    decode_username v =
      .ok (pyStrip (String.mk (utf16leDecode (pySlice v (leNat (pySlice v 16 20))
        (leNat (pySlice v 16 20) + leNat (pySlice v 12 14) * 2))))) := by
  have h1 : (pySlice v 12 14).length = 2 := by rw [pySlice_length]; omega
  have h2 : (pySlice v 16 20).length = 4 := by rw [pySlice_length]; omega
  simp [decode_username, structUnpack, h1, h2]

lemma decode_username_err_iff (v : List Nat) :
    decode_username v = .err ↔ v.length < 20 := by
  constructor
  · intro h
    by_contra hlen
    push_neg at hlen
    rw [decode_username_of_le v hlen] at h
    exact UsernameResult.noConfusion h
  · intro h
    by_cases h14 : v.length < 14
    · have h1 : (pySlice v 12 14).length ≠ 2 := by rw [pySlice_length]; omega
      simp [decode_username, structUnpack, h1]
    · have h1 : (pySlice v 12 14).length = 2 := by rw [pySlice_length]; omega
      have h2 : (pySlice v 16 20).length ≠ 4 := by rw [pySlice_length]; omega
      simp [decode_username, structUnpack, h1, h2]

lemma toUnits_asciiUtf16le (cs : List Char) :
    toUnits (asciiUtf16le cs) = cs.map Char.toNat := by
  induction cs with
  | nil => rfl
  | cons c cs ih => simp [asciiUtf16le, toUnits, ih]

lemma length_asciiUtf16le (cs : List Char) :
    (asciiUtf16le cs).length = 2 * cs.length := by
  induction cs with
  | nil => rfl
  | cons c cs ih => simp [asciiUtf16le, ih]; omega

lemma decodeUnits_map_toNat (cs : List Char) (h : ∀ c ∈ cs, c.toNat < 0xD800) :
    decodeUnits (cs.map Char.toNat) = cs := by
  induction cs with
  | nil => rfl
  | cons c cs ih =>
    have hc : c.toNat < 0xD800 := h c (List.mem_cons_self c cs)
    have hns : isHighSurrogate c.toNat = false := by
      simp [isHighSurrogate]; omega
    have hnl : isLowSurrogate c.toNat = false := by
      simp [isLowSurrogate]; omega
    have hsingle : decodeSingle c.toNat = c := by
      rw [decodeSingle, hns, hnl]
      simp [Char.ofNat_toNat]
    cases cs with
    | nil => simp [decodeUnits, hsingle]
    | cons c2 cs2 =>
      have ih2 := ih (fun x hx => h x (List.mem_cons_of_mem c hx))
      simp only [List.map_cons] at ih2 ⊢
      simp [decodeUnits, hns, hsingle, ih2]

lemma utf16leDecode_ascii (cs : List Char) (h : ∀ c ∈ cs, isPrintableAscii c = true) :
    utf16leDecode (asciiUtf16le cs) = cs := by
  have hlt : ∀ c ∈ cs, c.toNat < 0xD800 := by
    intro c hc
    have := h c hc
    simp [isPrintableAscii] at this
    omega
  rw [utf16leDecode, toUnits_asciiUtf16le, decodeUnits_map_toNat cs hlt,
    length_asciiUtf16le]
  simp [Nat.mul_mod_right]

/-- Successful unfolding of `decode_f_value` on a blob long enough for both
`struct.unpack` calls: the result is determined by the FILETIME at 8..16
and the flags word at 24..28. -/
lemma decode_f_value_of_le (f : List Nat) (h : 28 ≤ f.length) :
    decode_f_value f =
      (if leNat (pySlice f 8 16) = 0 then
        FResult.ok "Never"
          (if Nat.testBit (leNat (pySlice f 24 28)) 5 then "No Password Required"
           else "Password Required")
      else if leNat (pySlice f 8 16) / 10 ≤ maxMicro then
        FResult.ok (formatTimestamp (leNat (pySlice f 8 16) / 10))
          (if Nat.testBit (leNat (pySlice f 24 28)) 5 then "No Password Required"
           else "Password Required")
      else FResult.err) := by
  have h1 : (pySlice f 8 16).length = 8 := by rw [pySlice_length]; omega
  have h2 : (pySlice f 24 28).length = 4 := by rw [pySlice_length]; omega
  by_cases ht : leNat (pySlice f 8 16) = 0
  · simp [decode_f_value, structUnpack, h1, h2, ht]
  · by_cases hr : leNat (pySlice f 8 16) / 10 ≤ maxMicro
    · simp [decode_f_value, structUnpack, h1, h2, ht, hr]
    · simp [decode_f_value, structUnpack, h1, h2, ht, hr]

/-- A blob too short for the flags read always produces the error pair:
either the FILETIME unpack, the conversion, or the flags unpack raises, and
the single `except` arm swallows all of them. -/
lemma decode_f_value_err_of_short (f : List Nat) (h : f.length < 28) :
    decode_f_value f = .err := by
  by_cases h16 : f.length < 16
  · have h1 : (pySlice f 8 16).length ≠ 8 := by rw [pySlice_length]; omega
    simp [decode_f_value, structUnpack, h1]
  · have h1 : (pySlice f 8 16).length = 8 := by rw [pySlice_length]; omega
    have h2 : (pySlice f 24 28).length ≠ 4 := by rw [pySlice_length]; omega
    by_cases ht : leNat (pySlice f 8 16) = 0
    · simp [decode_f_value, structUnpack, h1, h2, ht]
    · by_cases hr : leNat (pySlice f 8 16) / 10 ≤ maxMicro
      · simp [decode_f_value, structUnpack, h1, h2, ht, hr]
      · simp [decode_f_value, structUnpack, h1, h2, ht, hr]

lemma processSubkey_names (k : Subkey) (h : k.name = "Names") :
    processSubkey k = none := by
  simp [processSubkey, h]

lemma processSubkey_isSome (k : Subkey) (h : k.name ≠ "Names") :
    (processSubkey k).isSome = true := by
  simp [processSubkey, h]

lemma parse_sam_hive_eq_filter (ks : List Subkey) :
    parse_sam_hive ks =
      (ks.filter (fun k => !(k.name == "Names"))).filterMap processSubkey := by
  induction ks with
  | nil => rfl
  | cons k ks ih =>
    by_cases h : k.name = "Names"
    · rw [parse_sam_hive, List.filterMap_cons, processSubkey_names k h,
        List.filter_cons_of_neg (by simp [h])]
      exact ih
    · rw [parse_sam_hive, List.filterMap_cons,
        List.filter_cons_of_pos (by simp [h]), List.filterMap_cons]
      rw [parse_sam_hive] at ih
      cases hpk : processSubkey k <;> simp [hpk, ih]

/-! ### Claim theorems -/

/-- A `V` blob of exactly preamble size (20 bytes) that declares the
4-character name at byte offset 0x20, far past the end of the blob. -/
def c1Blob : List Nat :=
  List.replicate 12 0 ++ leBytes 2 4 ++ List.replicate 2 0 ++ leBytes 4 0x20

/-- C1 counterexample: on a `V` blob whose declared data range
`offset..offset+2*length` (0x20..0x28) extends past the 20-byte blob, the
username decode does not fail: Python slicing clamps and the decode
returns the empty string, with no decode-error entry. -/
theorem c1_counterexample :
    c1Blob.length < leNat (pySlice c1Blob 16 20) + leNat (pySlice c1Blob 12 14) * 2 ∧
    decode_username c1Blob = .ok "" := by decide

/-- C1 (amended): the username decode never aborts, crashes or reads out
of bounds, and it yields an in-band error exactly when the `V` blob is too
short for the two preamble reads (shorter than 0x14 bytes); when only the
declared data range `offset..offset+2*length` exceeds the blob, the slice
clamps to the available bytes and a (possibly truncated or empty) string
is returned with no error. -/
theorem c1_theorem (v : List Nat) : decode_username v = .err ↔ v.length < 0x14 :=
  decode_username_err_iff v

/-- C1 witness: a 13-byte blob is too short for the preamble, so the
decode reports the in-band error. -/
theorem c1_witness : decode_username (List.replicate 13 0) = .err :=
  (c1_theorem (List.replicate 13 0)).mpr (by decide)

/-- The spec's end-to-end `V` blob: declared length 4 at 0x0C, declared
offset 0x20 at 0x10, and `"Jane"` encoded in UTF-16LE at 0x20. -/
def c2Blob : List Nat :=
  List.replicate 12 0 ++ leBytes 2 4 ++ List.replicate 2 0 ++ leBytes 4 0x20 ++
    List.replicate 12 0 ++ asciiUtf16le "Jane".data

/-- C2: when the 16-bit value at 0x0C is the character count `N`, the
32-bit value at 0x10 is the byte offset `O`, and the `2*N` bytes at `O`
lie inside the blob and are the UTF-16LE encoding of a printable-ASCII
string `s` with `N` characters, the username decode returns `s` after
whitespace trimming. -/
theorem c2_theorem (v : List Nat) (s : String) (h : 20 ≤ v.length)
    (hs : ∀ c ∈ s.data, isPrintableAscii c = true)
    (hN : leNat (pySlice v 12 14) = s.data.length)
    (hrange : leNat (pySlice v 16 20) + s.data.length * 2 ≤ v.length)
    (hdata : pySlice v (leNat (pySlice v 16 20))
        (leNat (pySlice v 16 20) + s.data.length * 2) = asciiUtf16le s.data) :
    decode_username v = .ok (pyStrip s) := by
  cases s with
  | mk data =>
    rw [decode_username_of_le v h, hN, hdata, utf16leDecode_ascii data hs]

/-- C2 witness: the spec's `"Jane"` blob decodes to `"Jane"`. -/
theorem c2_witness : decode_username c2Blob = .ok "Jane" :=
  (c2_theorem c2Blob "Jane" (by decide) (by decide) (by decide) (by decide)
    (by decide)).trans (by decide)

/-- C3: for every `F` blob long enough for both reads, the FILETIME at
offset 8 determines the last-logon output: zero yields `"Never"` (not an
error); a nonzero value whose microsecond conversion stays within the
representable `datetime` range yields 1601-01-01 00:00:00 plus
`value / 10` microseconds rendered as `"YYYY-MM-DD HH:MM:SS"`; a nonzero
value whose conversion falls outside that range yields the in-band error
rather than a nonsense timestamp. -/
theorem c3_theorem (f : List Nat) (h : 28 ≤ f.length) :
    (leNat (pySlice f 8 16) = 0 → ∃ p, decode_f_value f = .ok "Never" p) ∧
    (leNat (pySlice f 8 16) ≠ 0 → leNat (pySlice f 8 16) / 10 ≤ maxMicro →
      ∃ p, decode_f_value f =
        .ok (formatTimestamp (leNat (pySlice f 8 16) / 10)) p) ∧
    (leNat (pySlice f 8 16) ≠ 0 → maxMicro < leNat (pySlice f 8 16) / 10 →
      decode_f_value f = .err) := by
  rw [decode_f_value_of_le f h]
  refine ⟨fun ht => ?_, fun ht hr => ?_, fun ht hr => ?_⟩
  · rw [if_pos ht]
    exact ⟨_, rfl⟩
  · rw [if_neg ht, if_pos hr]
    exact ⟨_, rfl⟩
  · rw [if_neg ht, if_neg (by omega)]

/-- An `F` blob whose FILETIME field is `2^64 - 1`, whose microsecond
conversion overflows `datetime.max`. -/
def c3Blob : List Nat :=
  List.replicate 8 0 ++ List.replicate 8 0xFF ++ List.replicate 8 0 ++
    leBytes 4 0x220

/-- C3 witness: the all-ones FILETIME converts past 9999-12-31, so the
decode reports the in-band error instead of a nonsense date. -/
theorem c3_witness : decode_f_value c3Blob = .err :=
  (c3_theorem c3Blob (by decide)).2.2 (by decide) (by decide)

/-- An `F` blob with an overflowing FILETIME and flags word 0x220. -/
def c4Blob : List Nat :=
  List.replicate 8 0 ++ List.replicate 8 0xFF ++ List.replicate 8 0 ++
    leBytes 4 0x220

/-- C4 counterexample: an `F` blob of sufficient length whose flags word
0x220 has bit 0x20 set, yet the decode yields the error pair, not
`PasswordNotRequired`: the overflowing FILETIME conversion aborts the
shared `try` block before the flags are consulted, so the policy is not
determined solely by bit 0x20. -/
theorem c4_counterexample :
    28 ≤ c4Blob.length ∧
    Nat.testBit (leNat (pySlice c4Blob 24 28)) 5 = true ∧
    decode_f_value c4Blob = .err := by decide

/-- C4 (amended): for every `F` blob of sufficient length whose FILETIME
field is zero or converts within the representable range, the flags are
read as a 4-byte little-endian word at offset 0x18 (24) and the policy is
determined solely by bit 0x20: set yields `"No Password Required"`, clear
yields `"Password Required"`. -/
theorem c4_theorem (f : List Nat) (h : 28 ≤ f.length)
    (ht : leNat (pySlice f 8 16) = 0 ∨ leNat (pySlice f 8 16) / 10 ≤ maxMicro) :
    decode_f_value f =
      .ok (if leNat (pySlice f 8 16) = 0 then "Never"
           else formatTimestamp (leNat (pySlice f 8 16) / 10))
        (if Nat.testBit (leNat (pySlice f 24 28)) 5 then "No Password Required"
         else "Password Required") := by
  rw [decode_f_value_of_le f h]
  by_cases h0 : leNat (pySlice f 8 16) = 0
  · rw [if_pos h0, if_pos h0]
  · rcases ht with ht | ht
    · exact absurd ht h0
    · rw [if_neg h0, if_pos ht, if_neg h0]

/-- An `F` blob with zero FILETIME and flags word 0x220 (bit 0x20 set). -/
def c4Blob220 : List Nat := List.replicate 24 0 ++ leBytes 4 0x220

/-- An `F` blob with zero FILETIME and flags word 0x200 (bit 0x20 clear). -/
def c4Blob200 : List Nat := List.replicate 24 0 ++ leBytes 4 0x200

/-- C4 witness: flags 0x220 yields `"No Password Required"` and flags
0x200 yields `"Password Required"`. -/
theorem c4_witness :
    decode_f_value c4Blob220 = .ok "Never" "No Password Required" ∧
    decode_f_value c4Blob200 = .ok "Never" "Password Required" :=
  ⟨(c4_theorem c4Blob220 (by decide) (Or.inl (by decide))).trans (by decide),
   (c4_theorem c4Blob200 (by decide) (Or.inl (by decide))).trans (by decide)⟩

/-- An `F` blob with an overflowing FILETIME and a readable flags word
0x20. -/
def c5Blob : List Nat :=
  List.replicate 8 0 ++ List.replicate 8 0xFF ++ List.replicate 8 0 ++
    leBytes 4 0x20

/-- C5 counterexample: the flags field of this blob is fully readable
(4 bytes in range, bit 0x20 set), yet a failure in the timestamp
conversion makes the whole decode return the error pair: the flags
extraction is not attempted and recorded independently. -/
theorem c5_counterexample :
    (pySlice c5Blob 24 28).length = 4 ∧
    Nat.testBit (leNat (pySlice c5Blob 24 28)) 5 = true ∧
    decode_f_value c5Blob = .err := by decide

/-- C5 (amended): the timestamp and flags fields are decoded inside one
shared `try` block, not independently: any failure — a blob too short for
either read, or an out-of-range timestamp conversion — abandons the whole
decode and yields the single error pair, so a timestamp failure prevents
the flags extraction and a flags failure discards the timestamp. -/
theorem c5_theorem (f : List Nat) :
    (f.length < 28 → decode_f_value f = .err) ∧
    (28 ≤ f.length → leNat (pySlice f 8 16) ≠ 0 →
      maxMicro < leNat (pySlice f 8 16) / 10 → decode_f_value f = .err) := by
  refine ⟨fun h => decode_f_value_err_of_short f h, fun h ht hr => ?_⟩
  rw [decode_f_value_of_le f h, if_neg ht, if_neg (by omega)]

/-- C5 witness: a 20-byte blob (timestamp readable, flags not) yields the
error pair, discarding the readable timestamp. -/
theorem c5_witness : decode_f_value (List.replicate 20 0) = .err :=
  (c5_theorem (List.replicate 20 0)).1 (by decide)

/-- A subkey with an `F` value but no `V` value. -/
def c6Missing : Subkey := ⟨"1001", [("F", List.replicate 28 0)]⟩

/-- C6 counterexample: for a subkey whose `V` value is absent but whose
`F` value is present and decodable (it would yield
`("Never", "Password Required")`), the loop iteration emits only the
subkey-level error line: the `F` decoder is never run and no per-field
record is produced. -/
theorem c6_counterexample :
    processSubkey c6Missing = some (.procError "1001") ∧
    decode_f_value (List.replicate 28 0) = .ok "Never" "Password Required" := by
  decide

/-- C6 (amended): every enumerated subkey other than `"Names"` produces
exactly one output and no exception escapes; when both `V` and `F` are
present both decoders run, but when either value is absent the iteration
stops with a single subkey-level error: the other value's decoder does not
run and no per-field decode-error entry is recorded. -/
theorem c6_theorem (k : Subkey) (h : k.name ≠ "Names") :
    (∀ v f, k.values.lookup "V" = some v → k.values.lookup "F" = some f →
      processSubkey k =
        some (.record k.name (decode_username v) (decode_f_value f))) ∧
    (k.values.lookup "V" = none ∨ k.values.lookup "F" = none →
      processSubkey k = some (.procError k.name)) := by
  constructor
  · intro v f hv hf
    simp [processSubkey, h, hv, hf]
  · intro hmiss
    rcases hmiss with hm | hm
    · simp [processSubkey, h, hm]
    · cases hv : k.values.lookup "V" <;> simp [processSubkey, h, hm, hv]

/-- A subkey carrying both a `V` and an `F` value. -/
def c6Good : Subkey :=
  ⟨"03E9", [("V", List.replicate 20 0), ("F", List.replicate 28 0)]⟩

/-- C6 witness: with both values present, the iteration produces the
record with both decoders' outputs. -/
theorem c6_witness :
    processSubkey c6Good =
      some (.record "03E9" (decode_username (List.replicate 20 0))
        (decode_f_value (List.replicate 28 0))) :=
  (c6_theorem c6Good (by decide)).1 (List.replicate 20 0)
    (List.replicate 28 0) (by decide) (by decide)

/-- C7: the output of the loop is exactly the per-subkey outputs of the
subkeys whose name is not `"Names"`, in enumeration order: a subkey named
`"Names"` is skipped before any decoding regardless of its contents, and
every other subkey is processed (its iteration yields an output). -/
theorem c7_theorem (ks : List Subkey) :
    parse_sam_hive ks =
      (ks.filter (fun k => !(k.name == "Names"))).filterMap processSubkey ∧
    (∀ k : Subkey, k.name = "Names" → processSubkey k = none) ∧
    (∀ k : Subkey, k.name ≠ "Names" → (processSubkey k).isSome = true) :=
  ⟨parse_sam_hive_eq_filter ks, processSubkey_names, processSubkey_isSome⟩

/-- A subkey literally named `"Names"`, with arbitrary contents. -/
def c7Names : Subkey := ⟨"Names", [("V", [1, 2, 3]), ("F", [])]⟩

/-- A user subkey with no values at all. -/
def c7User : Subkey := ⟨"000003E8", []⟩

/-- C7 witness: the `"Names"` subkey contributes nothing, while a
non-`"Names"` subkey always yields an output. -/
theorem c7_witness :
    processSubkey c7Names = none ∧ (processSubkey c7User).isSome = true :=
  ⟨(c7_theorem []).2.1 c7Names rfl, (c7_theorem []).2.2 c7User (by decide)⟩

/-- C8: decoding is a pure function of the input bytes: two decodes of
equal `(V, F)` byte pairs give identical results for username, last logon
and password policy, with no hidden or mutable state. -/
theorem c8_theorem (v1 v2 f1 f2 : List Nat) (hv : v1 = v2) (hf : f1 = f2) :
    decodeAccount v1 f1 = decodeAccount v2 f2 := by
  rw [hv, hf]

/-- C8 witness: decoding the same concrete pair twice gives the same
result. -/
theorem c8_witness :
    decodeAccount (List.replicate 40 1) (List.replicate 28 2) =
      decodeAccount (List.replicate 40 1) (List.replicate 28 2) :=
  c8_theorem (List.replicate 40 1) (List.replicate 40 1)
    (List.replicate 28 2) (List.replicate 28 2) rfl rfl

/-- C9: both decoders are total at their interface: on every byte-string
input (empty and truncated blobs included) `decode_username` yields either
a decoded string or its in-band error string, and `decode_f_value` yields
either a `(last_login, policy)` pair or its in-band error pair; neither
ever raises to the caller. -/
theorem c9_theorem (v f : List Nat) :
    ((∃ s, decode_username v = .ok s) ∨ decode_username v = .err) ∧
    ((∃ l p, decode_f_value f = .ok l p) ∨ decode_f_value f = .err) := by
  constructor
  · cases h : decode_username v with
    | ok s => exact Or.inl ⟨s, rfl⟩
    | err => exact Or.inr rfl
  · cases h : decode_f_value f with
    | ok l p => exact Or.inl ⟨l, p, rfl⟩
    | err => exact Or.inr rfl

/-- A 20-byte `V` blob declaring 6 characters at byte offset 100, past
the end of the blob. -/
def c10Blob : List Nat :=
  List.replicate 12 0 ++ leBytes 2 6 ++ List.replicate 2 0 ++ leBytes 4 100

/-- C10: for every `V` blob of length at least 0x14 (both preamble reads
succeed), `decode_username` never returns an error value: the byte
extraction clamps to the bytes actually present, and a data offset at or
past the end of the blob yields the empty string. -/
theorem c10_theorem (v : List Nat) (h : 20 ≤ v.length) :
    (∃ s, decode_username v = .ok s) ∧
    (v.length ≤ leNat (pySlice v 16 20) → decode_username v = .ok "") := by
  refine ⟨⟨_, decode_username_of_le v h⟩, fun hoff => ?_⟩
  rw [decode_username_of_le v h, pySlice_eq_nil_of_le v _ _ hoff]
  decide

/-- C10 witness: the out-of-range declaration decodes to the empty
string with no error. -/
theorem c10_witness : decode_username c10Blob = .ok "" :=
  (c10_theorem c10Blob (by decide)).2 (by decide)

end SamHive
